import Mathlib

/-!  Shallow embedding of `sentry/stacktraces.py`: the stack-trace locator
(`find_stacktraces_in_data`), the per-frame processor chain
(`process_single_stacktrace`), the metrics-key selection (`get_metrics_key`)
and the orchestrator (`process_stacktraces`).

Modelling conventions: Python dicts with a fixed set of relevant keys become
structures with `Option` fields (`none` = key absent); code paths that raise
`KeyError` return `Except.error`; Python truthiness of a dict is an explicit
`truthy` predicate; the logging and metrics side effects become ghost fields
(`faults`, `calls`, `timer`) of the results; processors are modelled as pure
functions of the arguments the code passes to `process_frame`, whose call can
either raise or return `None`, a well-shaped result triple, or a non-`None`
falsy value. -/

namespace Sentry

/-- Errors the embedded Python code can raise (a dict subscript on a missing
key raises `KeyError`). -/
inductive PyErr
  | keyError
  deriving DecidableEq, Repr

/-- A stack frame: the optional per-frame `platform` field the core reads,
plus an opaque stand-in `fdata` for every other frame field. -/
structure Frame where
  platform : Option String := none
  fdata : Nat := 0
  deriving DecidableEq, Repr

/-- A stacktrace dict: the optional `frames` key, plus an opaque stand-in
`extra` for any other stack-trace-level keys (preserved by
`dict(stacktrace, frames=...)`). -/
structure Stacktrace where
  frames : Option (List Frame) := none
  extra : Option Nat := none
  deriving DecidableEq, Repr

/-- Python truthiness of a stacktrace dict: it is truthy iff non-empty. -/
def Stacktrace.truthy (s : Stacktrace) : Bool :=
  s.frames.isSome || s.extra.isSome

/-- One entry of the exception container: `exc.get('stacktrace')`, the
`raw_stacktrace` slot the merger may write, and opaque other fields. -/
structure ExcEntry where
  stacktrace : Option Stacktrace := none
  raw_stacktrace : Option Stacktrace := none
  edata : Nat := 0
  deriving DecidableEq, Repr

/-- One entry of the thread list, shaped like an exception entry. -/
structure Thread where
  stacktrace : Option Stacktrace := none
  raw_stacktrace : Option Stacktrace := none
  tdata : Nat := 0
  deriving DecidableEq, Repr

/-- A section dict holding a `values` list (`{'values': [...]}`): `values` is
the optional key, `vextra` records whether the dict has any other key, which
matters only for its Python truthiness. -/
structure ValuesDict (α : Type) where
  values : Option (List α) := none
  vextra : Bool := false
  deriving DecidableEq, Repr

/-- Python truthiness of a section dict: non-empty. -/
def ValuesDict.truthy {α : Type} (v : ValuesDict α) : Bool :=
  v.values.isSome || v.vextra

/-- The event payload: the three stack-trace-bearing sections, the event
platform, the project id and the accumulating `errors` list (`none` = the
`errors` key is absent). -/
structure Data where
  exception : Option (ValuesDict ExcEntry) := none
  stacktrace : Option Stacktrace := none
  threads : Option (ValuesDict Thread) := none
  platform : String := "python"
  project : Nat := 1
  errors : Option (List Nat) := none
  deriving DecidableEq, Repr

/-- The container owning a located stack trace: the exception or thread entry
it came from, tagged with its index in the section's `values` list (the index
stands for the dict's identity, which the merger writes through). -/
inductive Container
  | exc (idx : Nat) (entry : ExcEntry)
  | thread (idx : Nat) (entry : Thread)
  deriving DecidableEq, Repr

/-- The `StacktraceInfo` namedtuple: stacktrace, owning container (or none for
the top-level stack trace) and the set of contributing platforms. -/
structure StacktraceInfo where
  stacktrace : Stacktrace
  container : Option Container
  platforms : Finset String
  deriving DecidableEq

/-- The effective platform of a frame: `frame.get('platform') or
data['platform']` — an absent or falsy (empty-string) frame platform falls
back to the event platform. -/
def framePlatform (d : Data) (f : Frame) : String :=
  match f.platform with
  | some p => if p = "" then d.platform else p
  | none => d.platform

/-- The platform set `_report_stack` computes for one stack trace: starting
from the empty set, add each frame's effective platform. -/
def stackPlatforms (d : Data) (st : Stacktrace) : Finset String :=
  (st.frames.getD []).foldl (fun s f => insert (framePlatform d f) s) ∅

/-- The exception-section records, in list order: an entry contributes a
record iff it has a truthy `stacktrace` value.  The index argument tags the
owning container. -/
def excInfos (d : Data) : Nat → List ExcEntry → List StacktraceInfo
  | _, [] => []
  | i, e :: rest =>
    (match e.stacktrace with
     | some st =>
       if st.truthy then
         [⟨st, some (Container.exc i e), stackPlatforms d st⟩]
       else []
     | none => []) ++ excInfos d (i + 1) rest

/-- The thread-section records, in list order. -/
def threadInfos (d : Data) : Nat → List Thread → List StacktraceInfo
  | _, [] => []
  | i, t :: rest =>
    (match t.stacktrace with
     | some st =>
       if st.truthy then
         [⟨st, some (Container.thread i t), stackPlatforms d st⟩]
       else []
     | none => []) ++ threadInfos d (i + 1) rest

/-- The exception-section scan: a truthy container dict missing its `values`
key raises `KeyError` (`exc_container['values']`), a falsy or absent section
contributes nothing. -/
def findExcPart (d : Data) : Except PyErr (List StacktraceInfo) :=
  match d.exception with
  | some cont =>
    if cont.truthy then
      match cont.values with
      | none => throw PyErr.keyError
      | some vs => pure (excInfos d 0 vs)
    else pure []
  | none => pure []

/-- The top-level stack-trace scan: one record when the value is truthy. -/
def findTopPart (d : Data) : List StacktraceInfo :=
  match d.stacktrace with
  | some st => if st.truthy then [⟨st, none, stackPlatforms d st⟩] else []
  | none => []

/-- The thread-section scan, shaped like the exception-section scan. -/
def findThreadPart (d : Data) : Except PyErr (List StacktraceInfo) :=
  match d.threads with
  | some cont =>
    if cont.truthy then
      match cont.values with
      | none => throw PyErr.keyError
      | some vs => pure (threadInfos d 0 vs)
    else pure []
  | none => pure []

/-- `find_stacktraces_in_data(data)`: scan the exception container, the
top-level stack trace and the thread list, in that order, appending all
records. -/
def find_stacktraces_in_data (d : Data) : Except PyErr (List StacktraceInfo) := do
  let excPart ← findExcPart d
  let thrPart ← findThreadPart d
  pure (excPart ++ findTopPart d ++ thrPart)

/-- A well-shaped, truthy value a processor can return from `process_frame`:
the `(expand_processed, expand_raw, errors)` triple — or a non-`None` falsy
value such as `()` or `[]` (`PRV.falsy`), which `rv or (None, None, None)`
turns into the all-`None` triple. -/
inductive PRV
  | triple (expandProcessed : Option (List Frame)) (expandRaw : Option (List Frame))
      (errors : Option (List Nat))
  | falsy
  deriving DecidableEq, Repr

/-- The triple `rv or (None, None, None)` unpacks to. -/
def PRV.fields : PRV → Option (List Frame) × Option (List Frame) × Option (List Nat)
  | .triple p r e => (p, r, e)
  | .falsy => (none, none, none)

/-- The observable outcome of one `processor.process_frame(...)` call: it
either raises an exception or returns a value (`none` = Python `None`). -/
inductive PCall
  | raises
  | ret (rv : Option PRV)

/-- A processor bound to the run: its `preprocess_related_data()` answer and
its `process_frame(frame, stacktrace_info, reverse_index)` behaviour.
`close()` is a pure no-op and is not modelled. -/
structure Processor where
  preprocess : Bool := false
  processFrame : Frame → StacktraceInfo → Nat → PCall

/-- Result of the inner processor loop for one frame: the first non-`None`
return value if any, plus ghost observations — how many processors were
invoked and how many isolated faults were logged. -/
structure ChainResult where
  rv : Option PRV
  calls : Nat
  faults : Nat
  deriving DecidableEq, Repr

/-- The inner `for processor in processors` loop of
`process_single_stacktrace`: try processors in order; a raised exception is
logged and skipped, a `None` return is skipped, the first non-`None` return
value stops the loop (`break`). -/
def runChain (ps : List Processor) (f : Frame) (info : StacktraceInfo) (ridx : Nat) :
    ChainResult :=
  match ps with
  | [] => ⟨none, 0, 0⟩
  | p :: rest =>
    match p.processFrame f info ridx with
    | PCall.raises =>
      let r := runChain rest f info ridx
      ⟨r.rv, r.calls + 1, r.faults + 1⟩
    | PCall.ret none =>
      let r := runChain rest f info ridx
      ⟨r.rv, r.calls + 1, r.faults⟩
    | PCall.ret (some rv) => ⟨some rv, 1, 0⟩

/-- Mutable state of the frame loop of `process_single_stacktrace`. -/
structure FrameState where
  changed_raw : Bool := false
  changed_processed : Bool := false
  raw_frames : List Frame := []
  processed_frames : List Frame := []
  all_errors : List Nat := []
  deriving DecidableEq, Repr

/-- One iteration of the frame loop: run the processor chain on the frame
with `reverse_index = frame_count - idx - 1`; on a match, extend either
output with the corresponding expansion when it is not `None` and flag that
variant changed, otherwise append the original frame; collect the returned
errors (`all_errors.extend(errors or ())`). -/
def stepFrame (ps : List Processor) (info : StacktraceInfo) (fc : Nat)
    (st : FrameState) (idx : Nat) (f : Frame) : FrameState :=
  match (runChain ps f info (fc - idx - 1)).rv with
  | none =>
    { st with processed_frames := st.processed_frames ++ [f],
              raw_frames := st.raw_frames ++ [f] }
  | some rv =>
    let (ep, er, errs) := rv.fields
    let st1 :=
      match ep with
      | some fs => { st with processed_frames := st.processed_frames ++ fs,
                             changed_processed := true }
      | none => { st with processed_frames := st.processed_frames ++ [f] }
    let st2 :=
      match er with
      | some fs => { st1 with raw_frames := st1.raw_frames ++ fs,
                              changed_raw := true }
      | none => { st1 with raw_frames := st1.raw_frames ++ [f] }
    { st2 with all_errors := st2.all_errors ++ errs.getD [] }

/-- The `for idx, frame in enumerate(stacktrace['frames'])` loop. -/
def frameLoop (ps : List Processor) (info : StacktraceInfo) (fc : Nat) :
    FrameState → Nat → List Frame → FrameState
  | st, _, [] => st
  | st, idx, f :: rest => frameLoop ps info fc (stepFrame ps info fc st idx f) (idx + 1) rest

/-- The whole frame loop of `process_single_stacktrace`, starting from the
initial state on the trace's frame list. -/
def processFrames (ps : List Processor) (info : StacktraceInfo) (frames : List Frame) :
    FrameState :=
  frameLoop ps info frames.length {} 0 frames

/-- The triple `process_single_stacktrace` returns. -/
structure SSResult where
  processed : Option Stacktrace
  raw : Option Stacktrace
  errors : List Nat
  deriving DecidableEq, Repr

/-- `process_single_stacktrace(stacktrace_info, processors)`: subscripting
`stacktrace['frames']` raises `KeyError` when the key is absent; otherwise
run the frame loop and return `dict(stacktrace, frames=...)` for each variant
that changed (`None` otherwise) together with the collected errors. -/
def process_single_stacktrace (info : StacktraceInfo) (ps : List Processor) :
    Except PyErr SSResult :=
  match info.stacktrace.frames with
  | none => throw PyErr.keyError
  | some frames =>
    let st := processFrames ps info frames
    pure
      { processed :=
          if st.changed_processed then
            some { info.stacktrace with frames := some st.processed_frames }
          else none,
        raw :=
          if st.changed_raw then
            some { info.stacktrace with frames := some st.raw_frames }
          else none,
        errors := st.all_errors }

/-- `get_metrics_key(stacktrace_infos)`: union the platform sets; exactly one
platform selects its dedicated key when recognized, everything else falls back
to the shared key. -/
def get_metrics_key (infos : List StacktraceInfo) : String :=
  let platforms : Finset String := infos.foldl (fun s i => s ∪ i.platforms) ∅
  if h : platforms.card = 1 then
    let platform := platforms.min' (Finset.card_pos.mp (by rw [h]; exact Nat.one_pos))
    if platform = "javascript" then "sourcemaps.process"
    else if platform = "cocoa" then "dsym.process"
    else "mixed.process"
  else "mixed.process"

/-- Replace the element at index `i` of a list. -/
def listModify {α : Type} (f : α → α) : Nat → List α → List α
  | _, [] => []
  | 0, x :: xs => f x :: xs
  | n + 1, x :: xs => x :: listModify f n xs

/-- Update the entry at index `i` of a section dict's `values` list. -/
def ValuesDict.modifyAt {α : Type} (f : α → α) (i : Nat) (c : ValuesDict α) : ValuesDict α :=
  { c with values := c.values.map (listModify f i) }

/-- The in-place `stacktrace_info.stacktrace.clear(); ...update(new)` write,
performed at the located trace's position in the payload. -/
def setStackAt (d : Data) (cont : Option Container) (st : Stacktrace) : Data :=
  match cont with
  | some (Container.exc i _) =>
    { d with exception := d.exception.map (ValuesDict.modifyAt (fun e => { e with stacktrace := some st }) i) }
  | some (Container.thread i _) =>
    { d with threads := d.threads.map (ValuesDict.modifyAt (fun t => { t with stacktrace := some st }) i) }
  | none => { d with stacktrace := some st }

/-- The `stacktrace_info.container['raw_stacktrace'] = raw_stacktrace`
write. -/
def attachRawAt (d : Data) (cont : Container) (st : Stacktrace) : Data :=
  match cont with
  | Container.exc i _ =>
    { d with exception := d.exception.map (ValuesDict.modifyAt (fun e => { e with raw_stacktrace := some st }) i) }
  | Container.thread i _ =>
    { d with threads := d.threads.map (ValuesDict.modifyAt (fun t => { t with raw_stacktrace := some st }) i) }

/-- The merge step of `process_stacktraces` for one record's result: replace
the stack trace when the processed variant changed, attach the raw variant to
a non-`None` container when it changed, append non-empty errors via
`data.setdefault('errors', []).extend(errors)`; each performed write sets the
`changed` flag. -/
def applyRecord (dc : Data × Bool) (info : StacktraceInfo) (r : SSResult) : Data × Bool :=
  let (d, c) :=
    match r.processed with
    | some newSt => (setStackAt dc.1 info.container newSt, true)
    | none => dc
  let (d, c) :=
    match r.raw, info.container with
    | some rawSt, some cont => (attachRawAt d cont rawSt, true)
    | _, _ => (d, c)
  if r.errors.isEmpty then (d, c)
  else ({ d with errors := some ((d.errors.getD []) ++ r.errors) }, true)

/-- The `for stacktrace_info in infos` loop of `process_stacktraces`:
process each record and merge its result, threading the payload and the
`changed` flag; a `KeyError` from `process_single_stacktrace` propagates. -/
def traceLoop (ps : List Processor) : List StacktraceInfo → Data → Bool →
    Except PyErr (Data × Bool)
  | [], d, c => .ok (d, c)
  | info :: rest, d, c =>
    match process_single_stacktrace info ps with
    | .error e => .error e
    | .ok r =>
      let dc := applyRecord (d, c) info r
      traceLoop ps rest dc.1 dc.2

/-- The preprocess loop: `if processor.preprocess_related_data(): changed =
True`. -/
def runPreprocess (ps : List Processor) (changed : Bool) : Bool :=
  ps.foldl (fun c p => if p.preprocess then true else c) changed

/-- The observable outcome of `process_stacktraces`: the Python return value
(`none` = `None`), the ghost record of the `metrics.timer(mkey,
instance=data['project'])` span when it was entered, and the final `changed`
flag. -/
structure RunOutcome where
  result : Option Data
  timer : Option (String × Nat)
  changed : Bool
  deriving DecidableEq, Repr

/-- `process_stacktraces(data)`: locate, early-out with `None` and no timer
when there are no processors, otherwise run preprocess hooks, every record's
frame chain and the merge inside the timer span (the close hooks are pure
no-ops), and return the payload iff anything changed. -/
def process_stacktraces (d : Data) (processors : List Processor) :
    Except PyErr RunOutcome :=
  match find_stacktraces_in_data d with
  | .error e => .error e
  | .ok infos =>
    if processors.isEmpty then .ok ⟨none, none, false⟩
    else
      let mkey := get_metrics_key infos
      let c0 := runPreprocess processors false
      match traceLoop processors infos d c0 with
      | .error e => .error e
      | .ok (d', changed) =>
        .ok ⟨if changed then some d' else none, some (mkey, d.project), changed⟩

/-! ## Observable per-frame behaviour of the chain

These definitions name, per frame, what the chain's loop observably does:
the first matching return value, the frames each variant receives, the errors
collected, and whether a variant received a contribution.  They are proved
equal to the loop below and are what the claim theorems quantify over. -/

/-- The first non-`None` value the processor chain returns for the frame at
forward index `idx` of a trace with `fc` frames. -/
def frameChainRV (ps : List Processor) (info : StacktraceInfo) (fc idx : Nat) (f : Frame) :
    Option PRV :=
  (runChain ps f info (fc - idx - 1)).rv

/-- What the processed output receives for one frame: the contributed
processed expansion, or the single original frame. -/
def procExpansion (ps : List Processor) (info : StacktraceInfo) (fc idx : Nat) (f : Frame) :
    List Frame :=
  match frameChainRV ps info fc idx f with
  | some rv => (rv.fields.1).getD [f]
  | none => [f]

/-- What the raw output receives for one frame. -/
def rawExpansion (ps : List Processor) (info : StacktraceInfo) (fc idx : Nat) (f : Frame) :
    List Frame :=
  match frameChainRV ps info fc idx f with
  | some rv => (rv.fields.2.1).getD [f]
  | none => [f]

/-- The errors one frame contributes to the trace's error list. -/
def errContribution (ps : List Processor) (info : StacktraceInfo) (fc idx : Nat) (f : Frame) :
    List Nat :=
  match frameChainRV ps info fc idx f with
  | some rv => (rv.fields.2.2).getD []
  | none => []

/-- Whether some processor contributed a processed expansion for the frame. -/
def givesProc (ps : List Processor) (info : StacktraceInfo) (fc idx : Nat) (f : Frame) : Bool :=
  match frameChainRV ps info fc idx f with
  | some rv => (rv.fields.1).isSome
  | none => false

/-- Whether some processor contributed a raw expansion for the frame. -/
def givesRaw (ps : List Processor) (info : StacktraceInfo) (fc idx : Nat) (f : Frame) : Bool :=
  match frameChainRV ps info fc idx f with
  | some rv => (rv.fields.2.1).isSome
  | none => false

/-- The processed output of the whole trace: the in-order concatenation of
the per-frame processed expansions. -/
def procOut (ps : List Processor) (info : StacktraceInfo) (fc : Nat) :
    Nat → List Frame → List Frame
  | _, [] => []
  | idx, f :: rest => procExpansion ps info fc idx f ++ procOut ps info fc (idx + 1) rest

/-- The raw output of the whole trace. -/
def rawOut (ps : List Processor) (info : StacktraceInfo) (fc : Nat) :
    Nat → List Frame → List Frame
  | _, [] => []
  | idx, f :: rest => rawExpansion ps info fc idx f ++ rawOut ps info fc (idx + 1) rest

/-- The errors collected over the whole trace, in frame order. -/
def errOut (ps : List Processor) (info : StacktraceInfo) (fc : Nat) :
    Nat → List Frame → List Nat
  | _, [] => []
  | idx, f :: rest => errContribution ps info fc idx f ++ errOut ps info fc (idx + 1) rest

/-- Whether any frame of the trace received a processed contribution. -/
def anyProc (ps : List Processor) (info : StacktraceInfo) (fc : Nat) :
    Nat → List Frame → Bool
  | _, [] => false
  | idx, f :: rest => givesProc ps info fc idx f || anyProc ps info fc (idx + 1) rest

/-- Whether any frame of the trace received a raw contribution. -/
def anyRaw (ps : List Processor) (info : StacktraceInfo) (fc : Nat) :
    Nat → List Frame → Bool
  | _, [] => false
  | idx, f :: rest => givesRaw ps info fc idx f || anyRaw ps info fc (idx + 1) rest

/-! ## The Locator's output as the spec describes it

A second description of the Locator, written from §4.1 of the spec rather
than from the code, to be compared with `find_stacktraces_in_data`: records
in priority order — exceptions in list order, then the single top-level stack
trace if present, then threads in list order — and for each stack trace the
platform set is the union over all frames of the frame's platform override
(an absent or empty override meaning the event platform). -/

/-- The exception entries of the payload, `[]` when the section is absent. -/
def excList (d : Data) : List ExcEntry :=
  match d.exception with
  | some c => c.values.getD []
  | none => []

/-- The thread entries of the payload, `[]` when the section is absent. -/
def thrList (d : Data) : List Thread :=
  match d.threads with
  | some c => c.values.getD []
  | none => []

/-- Platform set of one stack trace, as §4.1 words it: the union over all
frames of the frame's effective platform; an empty frame list yields the
empty set. -/
def specPlatforms (d : Data) (st : Stacktrace) : Finset String :=
  ((st.frames.getD []).map (framePlatform d)).toFinset

/-- The record an exception entry (tagged with its index) contributes, if
any. -/
def specExcRecord (d : Data) (pr : Nat × ExcEntry) : Option StacktraceInfo :=
  match pr.2.stacktrace with
  | some st =>
    if st.truthy then some ⟨st, some (Container.exc pr.1 pr.2), specPlatforms d st⟩ else none
  | none => none

/-- The record a thread entry (tagged with its index) contributes, if any. -/
def specThreadRecord (d : Data) (pr : Nat × Thread) : Option StacktraceInfo :=
  match pr.2.stacktrace with
  | some st =>
    if st.truthy then some ⟨st, some (Container.thread pr.1 pr.2), specPlatforms d st⟩ else none
  | none => none

/-- The Locator's whole output in the spec's priority order. -/
def locator_spec (d : Data) : List StacktraceInfo :=
  (excList d).enum.filterMap (specExcRecord d)
  ++ (match d.stacktrace with
      | some st => if st.truthy then [⟨st, none, specPlatforms d st⟩] else []
      | none => [])
  ++ (thrList d).enum.filterMap (specThreadRecord d)


/-! ## Concrete fixtures used by the witness and counterexample theorems -/

/-- A frame with no platform override. -/
def fA : Frame := { fdata := 10 }

/-- Another frame, used as expansion material. -/
def fB : Frame := { fdata := 11 }

/-- A record holding a one-frame stack trace, no container. -/
def infoA : StacktraceInfo := ⟨{ frames := some [fA] }, none, {"python"}⟩

/-- A processor whose `process_frame` always returns `None`. -/
def pNone : Processor := { processFrame := fun _ _ _ => PCall.ret none }

/-- A processor whose `process_frame` always raises. -/
def pRaise : Processor := { processFrame := fun _ _ _ => PCall.raises }

/-- A processor that expands every frame into `[fB, fB]` in the processed
variant only. -/
def pExpand : Processor :=
  { processFrame := fun _ _ _ => PCall.ret (some (PRV.triple (some [fB, fB]) none none)) }

/-- A processor that contributes only a raw expansion (an empty one). -/
def pRawOnly : Processor :=
  { processFrame := fun _ _ _ => PCall.ret (some (PRV.triple none (some []) none)) }

/-- A processor that returns a non-`None` falsy value for every frame. -/
def pFalsy : Processor := { processFrame := fun _ _ _ => PCall.ret (some PRV.falsy) }

/-- The result the frame chain computes for `infoA` under `pRawOnly`. -/
def rRawOnly : SSResult := ⟨none, some { frames := some [], extra := none }, []⟩

/-- First frame of the §8 scenario. -/
def f0 : Frame := { fdata := 0 }

/-- Second frame of the §8 scenario. -/
def f1 : Frame := { fdata := 1 }

/-- Third (innermost, reverse index 0) frame of the §8 scenario. -/
def f2 : Frame := { fdata := 2 }

/-- The 3-frame stack trace of the §8 scenario. -/
def st9 : Stacktrace := { frames := some [f0, f1, f2] }

/-- Its owning exception entry. -/
def exc9 : ExcEntry := { stacktrace := some st9 }

/-- The §8 scenario payload: one exception with a 3-frame stack trace. -/
def d9 : Data :=
  { exception := some { values := some [exc9] }, platform := "python", project := 42 }

/-- The §8 scenario processor: claims only the frame with reverse index 0 and
returns `(None, None, [error 7])`, `None` elsewhere. -/
def p9 : Processor :=
  { processFrame := fun _ _ ridx =>
      if ridx = 0 then PCall.ret (some (PRV.triple none none (some [7])))
      else PCall.ret none }

/-- A payload with no stack traces at all. -/
def dEmpty : Data := {}

/-- A payload whose truthy exception container lacks its `values` list. -/
def dBadExc : Data := { exception := some { values := none, vextra := true } }

/-- A payload whose truthy top-level stack trace lacks its `frames` list. -/
def dBadTrace : Data := { stacktrace := some { extra := some 5 } }

/-- A thread with a one-frame stack trace. -/
def thr8 : Thread := { stacktrace := some { frames := some [fA] }, tdata := 8 }

/-- A payload with records in all three sections; the top-level stack trace
has an empty frame list. -/
def d8 : Data :=
  { exception := some { values := some [exc9] },
    stacktrace := some { frames := some [] },
    threads := some { values := some [thr8] },
    platform := "python", project := 7 }



/-- The single record the Locator finds in `d9`. -/
def info9 : StacktraceInfo := ⟨st9, some (Container.exc 0 exc9), {"python"}⟩

/-- The records the Locator finds in `d8`, in priority order. -/
def infos8 : List StacktraceInfo :=
  [⟨st9, some (Container.exc 0 exc9), {"python"}⟩,
   ⟨{ frames := some [] }, none, ∅⟩,
   ⟨{ frames := some [fA] }, some (Container.thread 0 thr8), {"python"}⟩]

/-- The outcome of running `d9` under the `None`-returning processor. -/
def oQuiet : RunOutcome := ⟨none, some ("mixed.process", 42), false⟩


/-- One loop iteration equals its per-frame observable description. -/
theorem stepFrame_eq (ps : List Processor) (info : StacktraceInfo) (fc : Nat)
    (st : FrameState) (idx : Nat) (f : Frame) :
    stepFrame ps info fc st idx f =
      { changed_raw := st.changed_raw || givesRaw ps info fc idx f,
        changed_processed := st.changed_processed || givesProc ps info fc idx f,
        raw_frames := st.raw_frames ++ rawExpansion ps info fc idx f,
        processed_frames := st.processed_frames ++ procExpansion ps info fc idx f,
        all_errors := st.all_errors ++ errContribution ps info fc idx f } := by
  cases hrv : (runChain ps f info (fc - idx - 1)).rv with
  | none =>
    simp [stepFrame, givesRaw, givesProc, rawExpansion, procExpansion, errContribution,
      frameChainRV, hrv]
  | some rv =>
    cases rv with
    | triple p r e =>
      cases p <;> cases r <;> cases e <;>
        simp [stepFrame, givesRaw, givesProc, rawExpansion, procExpansion, errContribution,
          frameChainRV, hrv, PRV.fields]
    | falsy =>
      simp [stepFrame, givesRaw, givesProc, rawExpansion, procExpansion, errContribution,
        frameChainRV, hrv, PRV.fields]

/-- The frame loop equals its observable description, from any state. -/
theorem frameLoop_spec (ps : List Processor) (info : StacktraceInfo) (fc : Nat)
    (frames : List Frame) : ∀ (st : FrameState) (idx : Nat),
    frameLoop ps info fc st idx frames =
      { changed_raw := st.changed_raw || anyRaw ps info fc idx frames,
        changed_processed := st.changed_processed || anyProc ps info fc idx frames,
        raw_frames := st.raw_frames ++ rawOut ps info fc idx frames,
        processed_frames := st.processed_frames ++ procOut ps info fc idx frames,
        all_errors := st.all_errors ++ errOut ps info fc idx frames } := by
  induction frames with
  | nil => intro st idx; simp [frameLoop, anyRaw, anyProc, rawOut, procOut, errOut]
  | cons f rest ih =>
    intro st idx
    rw [frameLoop, ih, stepFrame_eq]
    simp [anyRaw, anyProc, rawOut, procOut, errOut, Bool.or_assoc, List.append_assoc]

/-- The full frame loop from the initial state. -/
theorem processFrames_spec (ps : List Processor) (info : StacktraceInfo) (frames : List Frame) :
    processFrames ps info frames =
      { changed_raw := anyRaw ps info frames.length 0 frames,
        changed_processed := anyProc ps info frames.length 0 frames,
        raw_frames := rawOut ps info frames.length 0 frames,
        processed_frames := procOut ps info frames.length 0 frames,
        all_errors := errOut ps info frames.length 0 frames } := by
  rw [processFrames, frameLoop_spec]
  rfl

/-- A frame with no processed contribution passes through unchanged. -/
theorem procExpansion_of_not_gives (ps : List Processor) (info : StacktraceInfo)
    (fc idx : Nat) (f : Frame) (h : givesProc ps info fc idx f = false) :
    procExpansion ps info fc idx f = [f] := by
  unfold givesProc at h
  unfold procExpansion
  cases hrv : frameChainRV ps info fc idx f with
  | none => rfl
  | some rv =>
    rw [hrv] at h
    simp at h
    cases hp : rv.fields.1 with
    | none => simp [hp]
    | some fs => simp [hp] at h

/-- A frame with no raw contribution passes through unchanged. -/
theorem rawExpansion_of_not_gives (ps : List Processor) (info : StacktraceInfo)
    (fc idx : Nat) (f : Frame) (h : givesRaw ps info fc idx f = false) :
    rawExpansion ps info fc idx f = [f] := by
  unfold givesRaw at h
  unfold rawExpansion
  cases hrv : frameChainRV ps info fc idx f with
  | none => rfl
  | some rv =>
    rw [hrv] at h
    simp at h
    cases hp : rv.fields.2.1 with
    | none => simp [hp]
    | some fs => simp [hp] at h

/-- When no frame received a processed contribution the processed output is
exactly the original frame list. -/
theorem procOut_of_not_any (ps : List Processor) (info : StacktraceInfo) (fc : Nat)
    (frames : List Frame) : ∀ (idx : Nat), anyProc ps info fc idx frames = false →
    procOut ps info fc idx frames = frames := by
  induction frames with
  | nil => intro idx _; rfl
  | cons f rest ih =>
    intro idx h
    rw [anyProc, Bool.or_eq_false_iff] at h
    rw [procOut, procExpansion_of_not_gives ps info fc idx f h.1, ih (idx + 1) h.2]
    rfl

/-- When no frame received a raw contribution the raw output is exactly the
original frame list. -/
theorem rawOut_of_not_any (ps : List Processor) (info : StacktraceInfo) (fc : Nat)
    (frames : List Frame) : ∀ (idx : Nat), anyRaw ps info fc idx frames = false →
    rawOut ps info fc idx frames = frames := by
  induction frames with
  | nil => intro idx _; rfl
  | cons f rest ih =>
    intro idx h
    rw [anyRaw, Bool.or_eq_false_iff] at h
    rw [rawOut, rawExpansion_of_not_gives ps info fc idx f h.1, ih (idx + 1) h.2]
    rfl


/-- Folding platform inserts over the frames equals the set of mapped
platforms, joined to the accumulator. -/
theorem foldl_insert_platforms (d : Data) (l : List Frame) : ∀ (acc : Finset String),
    l.foldl (fun s f => insert (framePlatform d f) s) acc
      = acc ∪ (l.map (framePlatform d)).toFinset := by
  induction l with
  | nil => intro acc; simp
  | cons f rest ih =>
    intro acc
    rw [List.foldl_cons, ih]
    simp [Finset.insert_union, Finset.union_insert]

/-- The code's per-trace platform set equals the spec's. -/
theorem stackPlatforms_eq_spec (d : Data) (st : Stacktrace) :
    stackPlatforms d st = specPlatforms d st := by
  rw [stackPlatforms, specPlatforms, foldl_insert_platforms]
  simp

/-- The code's exception-section scan equals the spec's description. -/
theorem excInfos_eq_spec (d : Data) : ∀ (vs : List ExcEntry) (i : Nat),
    excInfos d i vs = (vs.enumFrom i).filterMap (specExcRecord d) := by
  intro vs
  induction vs with
  | nil => intro i; rfl
  | cons e rest ih =>
    intro i
    rw [excInfos, ih (i + 1)]
    cases he : e.stacktrace with
    | none => simp [List.enumFrom, List.filterMap_cons, specExcRecord, he]
    | some st =>
      cases ht : st.truthy <;>
        simp [List.enumFrom, List.filterMap_cons, specExcRecord, he, ht, stackPlatforms_eq_spec]

/-- The code's thread-section scan equals the spec's description. -/
theorem threadInfos_eq_spec (d : Data) : ∀ (vs : List Thread) (i : Nat),
    threadInfos d i vs = (vs.enumFrom i).filterMap (specThreadRecord d) := by
  intro vs
  induction vs with
  | nil => intro i; rfl
  | cons t rest ih =>
    intro i
    rw [threadInfos, ih (i + 1)]
    cases ht : t.stacktrace with
    | none => simp [List.enumFrom, List.filterMap_cons, specThreadRecord, ht]
    | some st =>
      cases htr : st.truthy <;>
        simp [List.enumFrom, List.filterMap_cons, specThreadRecord, ht, htr, stackPlatforms_eq_spec]

/-- When the exception-section scan succeeds it produces the spec's records. -/
theorem findExcPart_ok (d : Data) (l : List StacktraceInfo)
    (h : findExcPart d = Except.ok l) : l = (excList d).enum.filterMap (specExcRecord d) := by
  unfold findExcPart at h
  cases hexc : d.exception with
  | none =>
    rw [hexc] at h
    simp [pure, Except.pure] at h
    simp [excList, hexc, ← h]
  | some cont =>
    rw [hexc] at h
    cases hcv : cont.values with
    | some vs =>
      have ht : cont.truthy = true := by simp [ValuesDict.truthy, hcv]
      simp [ht, hcv, pure, Except.pure] at h
      rw [← h, excInfos_eq_spec]
      simp [excList, hexc, hcv, List.enum_eq_enumFrom]
    | none =>
      cases htr : cont.truthy with
      | true =>
        simp [htr, hcv, throw, throwThe, MonadExceptOf.throw] at h
      | false =>
        simp [htr, pure, Except.pure] at h
        simp [excList, hexc, hcv, ← h]

/-- When the thread-section scan succeeds it produces the spec's records. -/
theorem findThreadPart_ok (d : Data) (l : List StacktraceInfo)
    (h : findThreadPart d = Except.ok l) : l = (thrList d).enum.filterMap (specThreadRecord d) := by
  unfold findThreadPart at h
  cases hthr : d.threads with
  | none =>
    rw [hthr] at h
    simp [pure, Except.pure] at h
    simp [thrList, hthr, ← h]
  | some cont =>
    rw [hthr] at h
    cases hcv : cont.values with
    | some vs =>
      have ht : cont.truthy = true := by simp [ValuesDict.truthy, hcv]
      simp [ht, hcv, pure, Except.pure] at h
      rw [← h, threadInfos_eq_spec]
      simp [thrList, hthr, hcv, List.enum_eq_enumFrom]
    | none =>
      cases htr : cont.truthy with
      | true =>
        simp [htr, hcv, throw, throwThe, MonadExceptOf.throw] at h
      | false =>
        simp [htr, pure, Except.pure] at h
        simp [thrList, hthr, hcv, ← h]

/-- The top-level scan produces the spec's record. -/
theorem findTopPart_eq_spec (d : Data) :
    findTopPart d = (match d.stacktrace with
      | some st => if st.truthy then [(⟨st, none, specPlatforms d st⟩ : StacktraceInfo)] else []
      | none => []) := by
  unfold findTopPart
  cases d.stacktrace with
  | none => rfl
  | some st => cases ht : st.truthy <;> simp [ht, stackPlatforms_eq_spec]


/-! ## Claim theorems: the frame chain -/

/-- First-match behaviour of the chain loop: when every processor of a prefix
returns `None` and the next one returns a non-`None` value, the loop stops
there with that value; the processors after it do not influence the result
and the invocation count is the prefix length plus one. -/
theorem runChain_first_match (ps1 ps2 : List Processor) (p : Processor)
    (f : Frame) (info : StacktraceInfo) (ridx : Nat) (rv : PRV)
    (h1 : ∀ q ∈ ps1, q.processFrame f info ridx = PCall.ret none)
    (h2 : p.processFrame f info ridx = PCall.ret (some rv)) :
    runChain (ps1 ++ p :: ps2) f info ridx = ⟨some rv, ps1.length + 1, 0⟩ := by
  induction ps1 with
  | nil => simp [runChain, h2]
  | cons q qs ih =>
    have hq := h1 q (List.mem_cons_self q qs)
    have ih2 := ih (fun r hr => h1 r (List.mem_cons_of_mem q hr))
    simp [runChain, hq, ih2]

/-- C1: for every stack-trace record, processor list and frame, the chain
tries processors in registration order and stops at the first one whose
`process_frame` returns a non-null value: the processors before it are each
invoked (returning null), its result becomes the chain's result, and the
processors after it are never invoked for that frame — the result does not
depend on them and exactly `ps1.length + 1` invocations happen — regardless
of the expansion fields inside the returned tuple `rv`. -/
theorem C1_first_match_wins (ps1 ps2 : List Processor) (p : Processor)
    (f : Frame) (info : StacktraceInfo) (ridx : Nat) (rv : PRV)
    (h1 : ∀ q ∈ ps1, q.processFrame f info ridx = PCall.ret none)
    (h2 : p.processFrame f info ridx = PCall.ret (some rv)) :
    runChain (ps1 ++ p :: ps2) f info ridx = ⟨some rv, ps1.length + 1, 0⟩ :=
  runChain_first_match ps1 ps2 p f info ridx rv h1 h2

/-- Witness for C1: a `None`-returning processor, then a matching expanding
processor, then a raising processor that is never reached. -/
theorem C1_witness :
    runChain [pNone, pExpand, pRaise] fA infoA 0
      = ⟨some (PRV.triple (some [fB, fB]) none none), 2, 0⟩ :=
  C1_first_match_wins [pNone] [pRaise] pExpand fA infoA 0
    (PRV.triple (some [fB, fB]) none none)
    (fun q hq => by rw [List.mem_singleton] at hq; subst hq; rfl) rfl

/-- C10: a non-null but falsy `process_frame` return value still stops the
chain (it is a match), and is interpreted as no processed expansion, no raw
expansion and no errors, so both output variants receive the original
unmodified frame. -/
theorem C10_falsy_match (ps1 ps2 : List Processor) (p : Processor)
    (f : Frame) (info : StacktraceInfo) (ridx : Nat)
    (h1 : ∀ q ∈ ps1, q.processFrame f info ridx = PCall.ret none)
    (h2 : p.processFrame f info ridx = PCall.ret (some PRV.falsy)) :
    runChain (ps1 ++ p :: ps2) f info ridx = ⟨some PRV.falsy, ps1.length + 1, 0⟩
    ∧ ∀ (ps : List Processor) (fc idx : Nat) (g : Frame),
        frameChainRV ps info fc idx g = some PRV.falsy →
        procExpansion ps info fc idx g = [g]
        ∧ rawExpansion ps info fc idx g = [g]
        ∧ errContribution ps info fc idx g = [] := by
  refine ⟨runChain_first_match ps1 ps2 p f info ridx PRV.falsy h1 h2, ?_⟩
  intro ps fc idx g hg
  refine ⟨?_, ?_, ?_⟩ <;>
    simp [procExpansion, rawExpansion, errContribution, hg, PRV.fields]

/-- Witness for C10: the falsy-returning processor stops the chain before a
raising processor, and the frame passes through unchanged in both variants. -/
theorem C10_witness :
    (runChain [pNone, pFalsy, pRaise] fA infoA 0 = ⟨some PRV.falsy, 2, 0⟩
     ∧ ∀ (ps : List Processor) (fc idx : Nat) (g : Frame),
        frameChainRV ps infoA fc idx g = some PRV.falsy →
        procExpansion ps infoA fc idx g = [g]
        ∧ rawExpansion ps infoA fc idx g = [g]
        ∧ errContribution ps infoA fc idx g = []) :=
  C10_falsy_match [pNone] [pRaise] pFalsy fA infoA 0
    (fun q hq => by rw [List.mem_singleton] at hq; subst hq; rfl) rfl

/-- C3: a `process_frame` call that raises is isolated: the fault is counted
for diagnostics, the chain result is whatever the remaining processors
produce (they are still tried), and no processor exception ever escapes the
frame chain — a record whose stack trace has a frame list always processes
to an `ok` result. -/
theorem C3_fault_isolation (p : Processor) (rest : List Processor) (f : Frame)
    (info : StacktraceInfo) (ridx : Nat)
    (h : p.processFrame f info ridx = PCall.raises) :
    runChain (p :: rest) f info ridx
      = ⟨(runChain rest f info ridx).rv, (runChain rest f info ridx).calls + 1,
         (runChain rest f info ridx).faults + 1⟩
    ∧ ∀ (info2 : StacktraceInfo) (ps : List Processor) (frames : List Frame),
        info2.stacktrace.frames = some frames →
        ∃ r, process_single_stacktrace info2 ps = Except.ok r := by
  constructor
  · simp [runChain, h]
  · intro info2 ps frames hf
    unfold process_single_stacktrace
    rw [hf]
    exact ⟨_, rfl⟩

/-- Witness for C3: the raising processor is skipped and the following
processor still runs (the match of `pExpand` is used). -/
theorem C3_witness :
    (runChain [pRaise, pExpand] fA infoA 0
      = ⟨(runChain [pExpand] fA infoA 0).rv, (runChain [pExpand] fA infoA 0).calls + 1,
         (runChain [pExpand] fA infoA 0).faults + 1⟩
     ∧ ∀ (info2 : StacktraceInfo) (ps : List Processor) (frames : List Frame),
        info2.stacktrace.frames = some frames →
        ∃ r, process_single_stacktrace info2 ps = Except.ok r) :=
  C3_fault_isolation pRaise [pExpand] fA infoA 0 rfl

/-- C2: the processed and raw outputs are tracked independently: the
trace-level result for a variant is the unchanged marker (`none`) exactly
when no processor contributed an expansion for that variant anywhere in the
trace (a per-contribution condition, not value equality with the input), and
when a variant received no contribution its output frames are exactly the
original frames, each appended unmodified. -/
theorem C2_variant_independence (info : StacktraceInfo) (ps : List Processor)
    (frames : List Frame) (r : SSResult)
    (hf : info.stacktrace.frames = some frames)
    (hr : process_single_stacktrace info ps = Except.ok r) :
    ((r.processed = none ↔ anyProc ps info frames.length 0 frames = false)
     ∧ (r.raw = none ↔ anyRaw ps info frames.length 0 frames = false))
    ∧ (anyProc ps info frames.length 0 frames = false →
        (processFrames ps info frames).processed_frames = frames)
    ∧ (anyRaw ps info frames.length 0 frames = false →
        (processFrames ps info frames).raw_frames = frames) := by
  unfold process_single_stacktrace at hr
  rw [hf] at hr
  simp [pure, Except.pure] at hr
  subst hr
  refine ⟨⟨?_, ?_⟩, ?_, ?_⟩
  · cases hap : anyProc ps info frames.length 0 frames <;>
      simp [processFrames_spec, hap]
  · cases har : anyRaw ps info frames.length 0 frames <;>
      simp [processFrames_spec, har]
  · intro hap
    rw [processFrames_spec]
    exact procOut_of_not_any ps info frames.length frames 0 hap
  · intro har
    rw [processFrames_spec]
    exact rawOut_of_not_any ps info frames.length frames 0 har

/-- Witness for C2: a processor contributing only a raw expansion leaves the
processed result unchanged (`none`) while the raw result is not `none`. -/
theorem C2_witness :
    ((rRawOnly.processed = none ↔ anyProc [pRawOnly] infoA 1 0 [fA] = false)
     ∧ (rRawOnly.raw = none ↔ anyRaw [pRawOnly] infoA 1 0 [fA] = false))
    ∧ (anyProc [pRawOnly] infoA 1 0 [fA] = false →
        (processFrames [pRawOnly] infoA [fA]).processed_frames = [fA])
    ∧ (anyRaw [pRawOnly] infoA 1 0 [fA] = false →
        (processFrames [pRawOnly] infoA [fA]).raw_frames = [fA]) :=
  C2_variant_independence infoA [pRawOnly] [fA] rRawOnly rfl rfl

/-- C4: each output variant of the frame chain is the in-order concatenation,
over the frames, of either the expansion a matching processor contributed for
that frame in that variant or the single original frame, and the trace-level
result carries exactly that concatenation when the variant changed. -/
theorem C4_output_concatenation (info : StacktraceInfo) (ps : List Processor)
    (frames : List Frame) (r : SSResult)
    (hf : info.stacktrace.frames = some frames)
    (hr : process_single_stacktrace info ps = Except.ok r) :
    (processFrames ps info frames).processed_frames
        = procOut ps info frames.length 0 frames
    ∧ (processFrames ps info frames).raw_frames
        = rawOut ps info frames.length 0 frames
    ∧ r.processed = (if anyProc ps info frames.length 0 frames
        then some { info.stacktrace with
                      frames := some (procOut ps info frames.length 0 frames) }
        else none)
    ∧ r.raw = (if anyRaw ps info frames.length 0 frames
        then some { info.stacktrace with
                      frames := some (rawOut ps info frames.length 0 frames) }
        else none) := by
  unfold process_single_stacktrace at hr
  rw [hf] at hr
  simp [pure, Except.pure] at hr
  subst hr
  refine ⟨by rw [processFrames_spec], by rw [processFrames_spec], ?_, ?_⟩
  · cases hap : anyProc ps info frames.length 0 frames <;>
      simp [processFrames_spec, hap]
  · cases har : anyRaw ps info frames.length 0 frames <;>
      simp [processFrames_spec, har]

/-- Witness for C4: under the expanding processor the processed output is the
two-frame expansion and the raw output is the original frame. -/
theorem C4_witness :
    (process_single_stacktrace infoA [pExpand]
        = Except.ok ⟨some { frames := some [fB, fB], extra := none }, none, []⟩)
    ∧ ((processFrames [pExpand] infoA [fA]).processed_frames
          = procOut [pExpand] infoA 1 0 [fA]
       ∧ (processFrames [pExpand] infoA [fA]).raw_frames
          = rawOut [pExpand] infoA 1 0 [fA]
       ∧ (⟨some { frames := some [fB, fB], extra := none }, none, []⟩ : SSResult).processed
          = (if anyProc [pExpand] infoA 1 0 [fA]
             then some { infoA.stacktrace with frames := some (procOut [pExpand] infoA 1 0 [fA]) }
             else none)
       ∧ (⟨some { frames := some [fB, fB], extra := none }, none, []⟩ : SSResult).raw
          = (if anyRaw [pExpand] infoA 1 0 [fA]
             then some { infoA.stacktrace with frames := some (rawOut [pExpand] infoA 1 0 [fA]) }
             else none)) :=
  ⟨rfl, C4_output_concatenation infoA [pExpand] [fA]
    ⟨some { frames := some [fB, fB], extra := none }, none, []⟩ rfl rfl⟩



/-! ## Claim theorems: the orchestrator and the Locator -/

/-- C5 — counterexample to the claimed distinct signals: a full run that
changed nothing returns `None` (Python falls off `process_stacktraces`
without `return data`), the very value the zero-processor early exit
returns, so the two results are equal, not distinct. -/
theorem C5_counterexample :
    process_stacktraces d9 [pNone] = Except.ok ⟨none, some ("mixed.process", 42), false⟩
    ∧ process_stacktraces d9 [] = Except.ok ⟨none, none, false⟩
    ∧ (⟨none, some ("mixed.process", 42), false⟩ : RunOutcome).result
        = (⟨none, none, false⟩ : RunOutcome).result :=
  ⟨rfl, rfl, rfl⟩

/-- C5 — amended: the final result is the mutated payload exactly when the
dirty flag was set at least once, and otherwise `None` — the SAME value the
zero-processor early exit returns, so the return value alone does not
distinguish "ran, nothing to do" from "not yet processed" (only the ghost
timer field differs). -/
theorem C5_amended_result_signal (d : Data) (ps : List Processor) (o : RunOutcome)
    (h : process_stacktraces d ps = Except.ok o) :
    (o.changed = true → ∃ d2, o.result = some d2)
    ∧ (o.changed = false → o.result = none)
    ∧ ∀ o0, process_stacktraces d [] = Except.ok o0 →
        o0.result = none ∧ o0.timer = none := by
  unfold process_stacktraces at h
  cases hfind : find_stacktraces_in_data d with
  | error e => rw [hfind] at h; simp at h
  | ok infos =>
    rw [hfind] at h
    have hempty : ∀ o0, process_stacktraces d [] = Except.ok o0 →
        o0.result = none ∧ o0.timer = none := by
      intro o0 h0
      unfold process_stacktraces at h0
      rw [hfind] at h0
      simp [List.isEmpty] at h0
      subst h0
      exact ⟨rfl, rfl⟩
    cases hps : ps.isEmpty with
    | true =>
      simp [hps] at h
      subst h
      exact ⟨by simp, fun _ => rfl, hempty⟩
    | false =>
      cases htl : traceLoop ps infos d (runPreprocess ps false) with
      | error e => simp [hps, htl] at h
      | ok dc =>
        obtain ⟨d2, c2⟩ := dc
        simp [hps, htl] at h
        subst h
        refine ⟨?_, ?_, hempty⟩
        · intro hc
          cases c2 with
          | false => simp at hc
          | true => exact ⟨d2, rfl⟩
        · intro hc
          cases c2 with
          | true => simp at hc
          | false => rfl

/-- Witness for the amended C5 at a concrete quiet run. -/
theorem C5_witness :
    (process_stacktraces d9 [pNone] = Except.ok oQuiet)
    ∧ ((oQuiet.changed = true → ∃ d2, oQuiet.result = some d2)
       ∧ (oQuiet.changed = false → oQuiet.result = none)
       ∧ ∀ o0, process_stacktraces d9 [] = Except.ok o0 →
           o0.result = none ∧ o0.timer = none) :=
  ⟨rfl, C5_amended_result_signal d9 [pNone] oQuiet rfl⟩

/-- C6 — counterexample to "never fails": a truthy exception container
without its `values` list, and a truthy located stack trace without its
`frames` list, each raise `KeyError` out of the run instead of being
skipped. -/
theorem C6_counterexample :
    process_stacktraces dBadExc [pNone] = Except.error PyErr.keyError
    ∧ process_stacktraces dBadTrace [pNone] = Except.error PyErr.keyError :=
  ⟨rfl, rfl⟩

/-- C6 — amended: sections entirely absent from the payload are skipped and
never fail the run; only a present, truthy but malformed section (a section
dict lacking `values`, a located stack trace lacking `frames`) raises. -/
theorem C6_amended_absent_sections_skipped (d : Data)
    (h1 : d.exception = none) (h2 : d.stacktrace = none) (h3 : d.threads = none) :
    find_stacktraces_in_data d = Except.ok []
    ∧ ∀ ps, ∃ o, process_stacktraces d ps = Except.ok o := by
  have hfe : findExcPart d = Except.ok [] := by
    simp [findExcPart, h1, pure, Except.pure]
  have hft : findThreadPart d = Except.ok [] := by
    simp [findThreadPart, h3, pure, Except.pure]
  have htp : findTopPart d = [] := by
    simp [findTopPart, h2]
  have hfind : find_stacktraces_in_data d = Except.ok [] := by
    simp [find_stacktraces_in_data, hfe, hft, htp, bind, Except.bind, pure, Except.pure]
  refine ⟨hfind, ?_⟩
  intro ps
  unfold process_stacktraces
  rw [hfind]
  cases hps : ps.isEmpty with
  | true => exact ⟨⟨none, none, false⟩, by simp [hps]⟩
  | false =>
    exact ⟨⟨if runPreprocess ps false then some d else none,
            some (get_metrics_key [], d.project), runPreprocess ps false⟩,
      by simp [hps, traceLoop]⟩

/-- Witness for the amended C6 at the all-absent payload. -/
theorem C6_witness :
    find_stacktraces_in_data dEmpty = Except.ok []
    ∧ ∀ ps, ∃ o, process_stacktraces dEmpty ps = Except.ok o :=
  C6_amended_absent_sections_skipped dEmpty rfl rfl rfl

/-- C7 — counterexample to "records no timer": a payload with zero stack
traces but one (no-op) processor still enters the metrics timer span; the
result is the no-op `None` but a timer is recorded. -/
theorem C7_counterexample :
    find_stacktraces_in_data dEmpty = Except.ok []
    ∧ process_stacktraces dEmpty [pNone]
        = Except.ok ⟨none, some ("mixed.process", 1), false⟩
    ∧ (∃ o, process_stacktraces dEmpty [pNone] = Except.ok o ∧ o.timer ≠ none) :=
  ⟨rfl, rfl, ⟨⟨none, some ("mixed.process", 1), false⟩, rfl, by simp⟩⟩

/-- C7 — amended: with zero stack traces found, the early exit on zero
processors yields the no-op result with no timer; with at least one
processor the timer is recorded anyway (under the fallback key) and the
result is the no-op `None` unless a preprocess hook reported a mutation. -/
theorem C7_amended_zero_traces (d : Data) (ps : List Processor)
    (h : find_stacktraces_in_data d = Except.ok []) :
    (ps = [] → process_stacktraces d ps = Except.ok ⟨none, none, false⟩)
    ∧ (ps ≠ [] → process_stacktraces d ps
        = Except.ok ⟨if runPreprocess ps false then some d else none,
                     some ("mixed.process", d.project), runPreprocess ps false⟩) := by
  have hk : get_metrics_key ([] : List StacktraceInfo) = "mixed.process" := rfl
  constructor
  · intro hps
    subst hps
    unfold process_stacktraces
    rw [h]
    rfl
  · intro hps
    have hne : ps.isEmpty = false := by
      cases ps with
      | nil => exact absurd rfl hps
      | cons a l => rfl
    unfold process_stacktraces
    rw [h]
    simp [hne, traceLoop, hk]

/-- Witness for the amended C7: the no-trace payload with one processor. -/
theorem C7_witness :
    (([pNone] : List Processor) = [] →
      process_stacktraces dEmpty [pNone] = Except.ok ⟨none, none, false⟩)
    ∧ (([pNone] : List Processor) ≠ [] →
      process_stacktraces dEmpty [pNone]
        = Except.ok ⟨if runPreprocess [pNone] false then some dEmpty else none,
                     some ("mixed.process", dEmpty.project), runPreprocess [pNone] false⟩) :=
  C7_amended_zero_traces dEmpty [pNone] rfl

/-- C8: whenever the Locator succeeds, its records are exactly the spec's
description — exceptions in list order, then the top-level stack trace if
present, then threads in list order, each carrying as platform set the union
over its frames of the frame platform override or else the event platform —
and an empty frame list yields the empty platform set (while the record is
still produced, as `locator_spec` shows). -/
theorem C8_locator_refinement (d : Data) (infos : List StacktraceInfo)
    (h : find_stacktraces_in_data d = Except.ok infos) :
    infos = locator_spec d
    ∧ ∀ st : Stacktrace, st.frames = some [] → stackPlatforms d st = ∅ := by
  constructor
  · unfold find_stacktraces_in_data at h
    cases hfe : findExcPart d with
    | error e => rw [hfe] at h; simp [bind, Except.bind] at h
    | ok le =>
      cases hft : findThreadPart d with
      | error e => rw [hfe, hft] at h; simp [bind, Except.bind] at h
      | ok lth =>
        rw [hfe, hft] at h
        simp [bind, Except.bind, pure, Except.pure] at h
        rw [← h, locator_spec, findExcPart_ok d le hfe, findThreadPart_ok d lth hft,
          findTopPart_eq_spec]
        exact (List.append_assoc _ _ _).symm
  · intro st hst
    simp [stackPlatforms, hst]

/-- Witness for C8 at a payload populated in all three sections, whose
top-level stack trace has an empty frame list. -/
theorem C8_witness :
    (find_stacktraces_in_data d8 = Except.ok infos8)
    ∧ (infos8 = locator_spec d8
       ∧ ∀ st : Stacktrace, st.frames = some [] → stackPlatforms d8 st = ∅) :=
  ⟨rfl, C8_locator_refinement d8 infos8 rfl⟩

/-- C9: the §8 scenario — one exception with a 3-frame stack trace and a
processor that claims only the reverse-index-0 frame, returning
`(None, None, [error 7])`: both trace-level outputs are the unchanged marker,
the event error list gains exactly that one entry, and the run result is the
mutated payload (the error append sets the dirty flag) even though frame
content is identical to the input. -/
theorem C9_error_only_scenario :
    find_stacktraces_in_data d9 = Except.ok [info9]
    ∧ process_single_stacktrace info9 [p9] = Except.ok ⟨none, none, [7]⟩
    ∧ process_stacktraces d9 [p9]
        = Except.ok ⟨some { d9 with errors := some [7] },
                     some ("mixed.process", 42), true⟩ :=
  ⟨rfl, rfl, rfl⟩


end Sentry
